import Mathlib

/-!
Shallow embedding of the two modules of the repository:

* `src/ragas_evaluator.py` — the `RagasEvaluator` class, whose `evaluate`
  method builds a test case, instantiates up to three deepeval metrics with
  per-family fallback, scores each metric catching exceptions, and returns a
  per-metric result mapping together with an aggregate mean score.
* `src/doc_loader.py` — the `document_loader` class, whose constructor loads
  PDF / spreadsheet files and web links through external loaders, appending
  every produced document to the module-level list `docs`.

All behaviour delegated to external libraries (the deepeval metric classes,
the langchain loaders) is abstracted as an environment of functions; a call
that may raise a Python exception is a function into `Except String _`.
Python numeric scores are modelled as rationals, Python `None` and
non-numeric values as explicit constructors of `PyVal`.  Mutation of the
module-level `docs` list and console printing are modelled by explicit state
passing (`DLState`), and an exception propagating out of a call is the
`Option String` component of the result.
-/

namespace Ragas

/-- A Python value as stored in a metric result's `score` field: `None`, a
numeric value (`int`/`float`, modelled as `ℚ`), or any other object. -/
inductive PyVal where
  | noneVal : PyVal
  | num : ℚ → PyVal
  | other : String → PyVal
deriving DecidableEq

/-- One entry of the `results` dict built by `RagasEvaluator.evaluate`:
a score and an optional reason string. -/
structure MetricResult where
  score : PyVal
  reason : Option String
deriving DecidableEq

/-- The `LLMTestCase` built by `evaluate` (deepeval's record of the inputs
handed to every metric). -/
structure LLMTestCase where
  input : String
  actual_output : String
  context : List String
  retrieval_context : List String
deriving DecidableEq

/-- An instantiated metric object: its resolved name
(`getattr(metric, "__name__", metric.__class__.__name__)`) and its
`measure` call, which either raises or returns the score value together with
the metric's `reason` attribute read after the call. -/
structure Metric where
  name : String
  measure : LLMTestCase → Except String (PyVal × Option String)

/-- The behaviour of the four external metric constructors as invoked by
`evaluate` (each applied to `self.model` / `self.embeddings` and the fixed
keyword arguments of the source): constructing
`RAGASAnswerRelevancyMetric`, importing-and-constructing
`AnswerRelevancyMetric`, constructing `BiasMetric`, and constructing
`HallucinationMetric`.  `Except.error` is the constructor raising. -/
structure MetricEnv where
  ragasRelevancy : Except String Metric
  answerRelevancy : Except String Metric
  bias : Except String Metric
  hallucination : Except String Metric

/-- Python's `x or []` for an optional list argument: `None` and the empty
list are falsy and give `[]`; a non-empty list is returned unchanged. -/
def pyOrList (c : Option (List String)) : List String :=
  match c with
  | Option.none => []
  | Option.some l => if l.isEmpty then [] else l

/-- The `metrics` list built by `evaluate`: RAGAS answer relevancy, falling
back to the generic answer-relevancy metric if its construction raises, then
the bias metric, then the hallucination metric; a family whose construction
raises contributes nothing. -/
def buildMetrics (env : MetricEnv) : List Metric :=
  (match env.ragasRelevancy with
   | .ok m => [m]
   | .error _ =>
     match env.answerRelevancy with
     | .ok m => [m]
     | .error _ => []) ++
  (match env.bias with
   | .ok m => [m]
   | .error _ => []) ++
  (match env.hallucination with
   | .ok m => [m]
   | .error _ => [])

/-- Python dict assignment `d[k] = v` on a dict represented as an ordered
association list: an existing key keeps its position and gets the new value,
a new key is appended at the end. -/
def dictInsert (l : List (String × MetricResult)) (k : String) (v : MetricResult) :
    List (String × MetricResult) :=
  match l with
  | [] => [(k, v)]
  | (k', v') :: rest => if k' = k then (k, v) :: rest else (k', v') :: dictInsert rest k v

/-- The scoring loop of `evaluate`: for each metric, call `measure` on the
test case; on success record the returned score and the `reason` attribute,
on an exception record a `None` score and the reason string
`"metric error: " ++ e`; numeric scores are also collected into `scores`. -/
def scoreMetrics (tc : LLMTestCase) (ms : List Metric)
    (results : List (String × MetricResult)) (scores : List ℚ) :
    List (String × MetricResult) × List ℚ :=
  match ms with
  | [] => (results, scores)
  | m :: rest =>
    match m.measure tc with
    | .ok (v, r) =>
      scoreMetrics tc rest (dictInsert results m.name ⟨v, r⟩)
        (match v with
         | .num q => scores ++ [q]
         | _ => scores)
    | .error e =>
      scoreMetrics tc rest
        (dictInsert results m.name ⟨.noneVal, Option.some ("metric error: " ++ e)⟩) scores

/-- The dictionary returned by `evaluate`: the per-metric results and the
aggregate score. -/
structure EvalReport where
  metrics : List (String × MetricResult)
  aggregate : Option ℚ
deriving DecidableEq

/-- The test case built at the top of `evaluate`:
`LLMTestCase(input=…, actual_output=…, context=context, retrieval_context=context)`
after `context = context or []`. -/
def mkTestCase (input_text response_text : String) (context : Option (List String)) :
    LLMTestCase :=
  ⟨input_text, response_text, pyOrList context, pyOrList context⟩

/-- The final line computing the aggregate:
`sum(scores) / len(scores) if scores else None`. -/
def meanOfScores (l : List ℚ) : Option ℚ :=
  if l.isEmpty then Option.none else Option.some (l.sum / l.length)

/-- `RagasEvaluator.evaluate`: build the test case, instantiate the metrics,
score them, and return the result mapping with
`aggregate = sum(scores)/len(scores) if scores else None`. -/
def evaluate (env : MetricEnv) (input_text response_text : String)
    (context : Option (List String)) : EvalReport :=
  let tc := mkTestCase input_text response_text context
  let p := scoreMetrics tc (buildMetrics env) [] []
  { metrics := p.1
    aggregate := meanOfScores p.2 }

/-- Extract the rational of a numeric `PyVal` (the
`isinstance(score, (int, float))` test of the source). -/
def numOf : PyVal → Option ℚ
  | PyVal.num q => Option.some q
  | _ => Option.none

/-- The score value a metric's entry records: the value returned by
`measure`, or `None` when `measure` raises. -/
def metricScore (tc : LLMTestCase) (m : Metric) : PyVal :=
  match m.measure tc with
  | .ok (v, _) => v
  | .error _ => PyVal.noneVal

/-- The `results` entry a single metric produces, determined solely by its
own `measure` call on the test case. -/
def metricEntry (tc : LLMTestCase) (m : Metric) : String × MetricResult :=
  match m.measure tc with
  | .ok (v, r) => (m.name, ⟨v, r⟩)
  | .error e => (m.name, ⟨PyVal.noneVal, Option.some ("metric error: " ++ e)⟩)

/-- The numeric scores the metrics of `ms` contribute, in order. -/
def numericScores (tc : LLMTestCase) (ms : List Metric) : List ℚ :=
  ms.filterMap (fun m => numOf (metricScore tc m))

end Ragas

namespace DocLoader

/-- A document object produced by an external loader (text content plus a
source identifier; the structural metadata of real loader output is not
inspected by this code). -/
structure Document where
  content : String
  source : String
deriving DecidableEq

/-- One console print of `doc_loader.py` that the claims observe: the
`print("*", loader)` before each web load, the
`print(f"Failed to load {link}: {e}")` diagnostic, the
`print(self.rag_files, self.rag_links)` in the constructor, and the dumps of
the `docs` list. -/
inductive LogEntry where
  | inputs : List String → List String → LogEntry
  | loaderRepr : String → LogEntry
  | webLoadFailed : String → String → LogEntry
  | docsDump : List Document → LogEntry
deriving DecidableEq

/-- The behaviour of the three external loaders as used by
`_build_vectorstore`: `PyPDFLoader(path).load()`,
`UnstructuredExcelLoader(path).load()`, and
`WebBaseLoader(link, requests_per_second=1, trust_env=True).load()`.
`Except.error` is the load raising. -/
structure LoaderEnv where
  loadPdf : String → Except String (List Document)
  loadExcel : String → Except String (List Document)
  loadWeb : String → Except String (List Document)

/-- The module state of `doc_loader.py`: the module-level `docs` list and the
console output. -/
structure DLState where
  docs : List Document
  log : List LogEntry
deriving DecidableEq

/-- Python's `s.lower()`. -/
def pyLower (s : String) : String := String.mk (s.data.map Char.toLower)

/-- Python's `s.endswith(suf)`. -/
def pyEndsWith (s suf : String) : Bool := suf.data.isSuffixOf s.data

/-- The file loop of `_build_vectorstore`: `.pdf` paths go to the PDF loader,
`.xls`/`.xlsx` paths to the spreadsheet loader, anything else is skipped; the
loads are not wrapped in `try`, so the first raising load stops the loop and
propagates (second component `some e`), leaving `docs` as extended so far. -/
def loadFiles (env : LoaderEnv) (files : List String) (docs : List Document) :
    List Document × Option String :=
  match files with
  | [] => (docs, Option.none)
  | f :: rest =>
    if pyEndsWith (pyLower f) ".pdf" then
      match env.loadPdf f with
      | .ok ds => loadFiles env rest (docs ++ ds)
      | .error e => (docs, Option.some e)
    else if pyEndsWith (pyLower f) ".xls" || pyEndsWith (pyLower f) ".xlsx" then
      match env.loadExcel f with
      | .ok ds => loadFiles env rest (docs ++ ds)
      | .error e => (docs, Option.some e)
    else loadFiles env rest docs

/-- The link loop of `_build_vectorstore`: print the loader, then
`try: docs.extend(loader.load()) except Exception as e: print(f"Failed to load {link}: {e}")` —
every exception is caught, so the loop always finishes. -/
def loadLinks (env : LoaderEnv) (links : List String) (docs : List Document)
    (log : List LogEntry) : List Document × List LogEntry :=
  match links with
  | [] => (docs, log)
  | l :: rest =>
    match env.loadWeb l with
    | .ok ds => loadLinks env rest (docs ++ ds) (log ++ [LogEntry.loaderRepr l])
    | .error e =>
      loadLinks env rest docs (log ++ [LogEntry.loaderRepr l, LogEntry.webLoadFailed l e])

/-- `document_loader.__init__` (including `_build_vectorstore`): normalize the
two optional argument lists with `or []`; if either is non-empty, print them
and run the file loop then the link loop, finishing with `print(docs)`.
The constructor returns no value: the result is only the new module state,
plus `some e` when an uncaught file-loader exception propagates out. -/
def document_loader (env : LoaderEnv) (rag_files rag_links : Option (List String))
    (st : DLState) : DLState × Option String :=
  let files := Ragas.pyOrList rag_files
  let links := Ragas.pyOrList rag_links
  if files.isEmpty && links.isEmpty then (st, Option.none)
  else
    let log1 := st.log ++ [LogEntry.inputs files links]
    match loadFiles env files st.docs with
    | (docs1, Option.some e) => (⟨docs1, log1⟩, Option.some e)
    | (docs1, Option.none) =>
      let p := loadLinks env links docs1 log1
      (⟨p.1, p.2 ++ [LogEntry.docsDump p.1]⟩, Option.none)

/-- The URL hard-coded in the top-level statement of `doc_loader.py`. -/
def hardcodedUrl : String := "https://deepeval.com/guides/guides-ai-agent-evaluation"

/-- The top-level code run when the module is imported, starting from the
fresh module state `docs = []`:
`document_loader(rag_links=[…])` followed by `print(docs)`. -/
def moduleInit (env : LoaderEnv) : DLState × Option String :=
  match document_loader env Option.none (Option.some [hardcodedUrl]) ⟨[], []⟩ with
  | (st, Option.some e) => (st, Option.some e)
  | (st, Option.none) => (⟨st.docs, st.log ++ [LogEntry.docsDump st.docs]⟩, Option.none)

/-- The documents the link loop appends for a list of links: the output of
every successful load, in link order. -/
def webDocs (env : LoaderEnv) (links : List String) : List Document :=
  links.flatMap (fun l =>
    match env.loadWeb l with
    | .ok ds => ds
    | .error _ => [])

/-- The console output of the link loop for a list of links. -/
def linkLog (env : LoaderEnv) (links : List String) : List LogEntry :=
  links.flatMap (fun l =>
    match env.loadWeb l with
    | .ok _ => [LogEntry.loaderRepr l]
    | .error e => [LogEntry.loaderRepr l, LogEntry.webLoadFailed l e])

end DocLoader

open Ragas DocLoader

/-! ### Supporting lemmas about the evaluation adapter -/

theorem metricEntry_fst (tc : LLMTestCase) (m : Metric) : (metricEntry tc m).1 = m.name := by
  unfold metricEntry
  cases hm : m.measure tc with
  | ok p => cases p; rfl
  | error e => rfl

theorem metricEntry_score (tc : LLMTestCase) (m : Metric) :
    (metricEntry tc m).2.score = metricScore tc m := by
  unfold metricEntry metricScore
  cases hm : m.measure tc with
  | ok p => cases p; rfl
  | error e => rfl

theorem dictInsert_of_notMem (l : List (String × MetricResult)) (k : String) (v : MetricResult)
    (h : k ∉ l.map Prod.fst) : dictInsert l k v = l ++ [(k, v)] := by
  induction l with
  | nil => rfl
  | cons p rest ih =>
    obtain ⟨k', v'⟩ := p
    simp only [List.map_cons, List.mem_cons] at h
    push_neg at h
    simp [dictInsert, Ne.symm h.1, ih h.2]

theorem mem_fst_dictInsert_self (l : List (String × MetricResult)) (k : String) (v : MetricResult) :
    k ∈ (dictInsert l k v).map Prod.fst := by
  induction l with
  | nil => simp [dictInsert]
  | cons p rest ih =>
    obtain ⟨k', v'⟩ := p
    by_cases h : k' = k <;> simp [dictInsert, h, ih]

theorem mem_fst_dictInsert_of_mem (l : List (String × MetricResult)) (k k' : String)
    (v : MetricResult) (h : k' ∈ l.map Prod.fst) : k' ∈ (dictInsert l k v).map Prod.fst := by
  induction l with
  | nil => simp at h
  | cons p rest ih =>
    obtain ⟨k0, v0⟩ := p
    simp only [List.map_cons, List.mem_cons] at h
    by_cases hk : k0 = k
    · rcases h with h | h <;> simp [dictInsert, hk, h]
    · rcases h with h | h
      · simp [dictInsert, hk, h]
      · simp [dictInsert, hk, ih h]

theorem scoreMetrics_snd (tc : LLMTestCase) :
    ∀ (ms : List Metric) (res : List (String × MetricResult)) (sc : List ℚ),
      (scoreMetrics tc ms res sc).2 = sc ++ numericScores tc ms := by
  intro ms
  induction ms with
  | nil => intro res sc; simp [scoreMetrics, numericScores]
  | cons m rest ih =>
    intro res sc
    simp only [scoreMetrics, numericScores, List.filterMap_cons]
    cases hm : m.measure tc with
    | ok p =>
      obtain ⟨v, r⟩ := p
      cases v <;> simp [ih, numericScores, numOf, metricScore, hm]
    | error e =>
      simp [ih, numericScores, numOf, metricScore, hm]

theorem scoreMetrics_fst (tc : LLMTestCase) :
    ∀ (ms : List Metric) (res : List (String × MetricResult)) (sc : List ℚ),
      (ms.map Metric.name).Nodup →
      (∀ m ∈ ms, m.name ∉ res.map Prod.fst) →
      (scoreMetrics tc ms res sc).1 = res ++ ms.map (metricEntry tc) := by
  intro ms
  induction ms with
  | nil => intro res sc _ _; simp [scoreMetrics]
  | cons m rest ih =>
    intro res sc hnd hdisj
    have hmname : m.name ∉ res.map Prod.fst := hdisj m (List.mem_cons_self m rest)
    have hnd' : (rest.map Metric.name).Nodup := (List.nodup_cons.mp (by simpa using hnd)).2
    have hmrest : m.name ∉ rest.map Metric.name := (List.nodup_cons.mp (by simpa using hnd)).1
    have hdisj' : ∀ v : MetricResult, ∀ m' ∈ rest, m'.name ∉ (res ++ [(m.name, v)]).map Prod.fst := by
      intro v m' hm'
      simp only [List.map_append, List.mem_append, List.map_cons, List.map_nil,
        List.mem_singleton, List.mem_cons]
      rintro (h | h)
      · exact hdisj m' (List.mem_cons_of_mem m hm') h
      · simp only [List.not_mem_nil, or_false] at h
        exact hmrest (h ▸ List.mem_map_of_mem Metric.name hm')
    cases hm : m.measure tc with
    | ok p =>
      obtain ⟨v, r⟩ := p
      cases v with
      | noneVal =>
        have hstep : (scoreMetrics tc (m :: rest) res sc).1
            = (scoreMetrics tc rest (dictInsert res m.name ⟨PyVal.noneVal, r⟩) sc).1 := by
          simp only [scoreMetrics, hm]
        rw [hstep, dictInsert_of_notMem res m.name _ hmname, ih _ _ hnd' (hdisj' _)]
        simp [metricEntry, hm]
      | num q =>
        have hstep : (scoreMetrics tc (m :: rest) res sc).1
            = (scoreMetrics tc rest (dictInsert res m.name ⟨PyVal.num q, r⟩) (sc ++ [q])).1 := by
          simp only [scoreMetrics, hm]
        rw [hstep, dictInsert_of_notMem res m.name _ hmname, ih _ _ hnd' (hdisj' _)]
        simp [metricEntry, hm]
      | other s =>
        have hstep : (scoreMetrics tc (m :: rest) res sc).1
            = (scoreMetrics tc rest (dictInsert res m.name ⟨PyVal.other s, r⟩) sc).1 := by
          simp only [scoreMetrics, hm]
        rw [hstep, dictInsert_of_notMem res m.name _ hmname, ih _ _ hnd' (hdisj' _)]
        simp [metricEntry, hm]
    | error e =>
      have hstep : (scoreMetrics tc (m :: rest) res sc).1
          = (scoreMetrics tc rest
              (dictInsert res m.name ⟨PyVal.noneVal, Option.some ("metric error: " ++ e)⟩) sc).1 := by
        simp only [scoreMetrics, hm]
      rw [hstep, dictInsert_of_notMem res m.name _ hmname, ih _ _ hnd' (hdisj' _)]
      simp [metricEntry, hm]

theorem scoreMetrics_fst_key_mono (tc : LLMTestCase) :
    ∀ (ms : List Metric) (res : List (String × MetricResult)) (sc : List ℚ) (k : String),
      k ∈ res.map Prod.fst → k ∈ ((scoreMetrics tc ms res sc).1).map Prod.fst := by
  intro ms
  induction ms with
  | nil => intro res sc k h; simpa [scoreMetrics] using h
  | cons m rest ih =>
    intro res sc k h
    simp only [scoreMetrics]
    cases hm : m.measure tc with
    | ok p =>
      obtain ⟨v, r⟩ := p
      exact ih _ _ k (mem_fst_dictInsert_of_mem res m.name k _ h)
    | error e =>
      exact ih _ _ k (mem_fst_dictInsert_of_mem res m.name k _ h)

theorem scoreMetrics_fst_key_mem (tc : LLMTestCase) :
    ∀ (ms : List Metric) (res : List (String × MetricResult)) (sc : List ℚ) (m : Metric),
      m ∈ ms → m.name ∈ ((scoreMetrics tc ms res sc).1).map Prod.fst := by
  intro ms
  induction ms with
  | nil => intro res sc m h; simp at h
  | cons m0 rest ih =>
    intro res sc m h
    rcases List.mem_cons.mp h with h | h
    · subst h
      simp only [scoreMetrics]
      cases hm : m.measure tc with
      | ok p =>
        obtain ⟨v, r⟩ := p
        exact scoreMetrics_fst_key_mono tc rest _ _ m.name (mem_fst_dictInsert_self res m.name _)
      | error e =>
        exact scoreMetrics_fst_key_mono tc rest _ _ m.name (mem_fst_dictInsert_self res m.name _)
    · simp only [scoreMetrics]
      cases hm : m0.measure tc with
      | ok p =>
        obtain ⟨v, r⟩ := p
        exact ih _ _ m h
      | error e =>
        exact ih _ _ m h

theorem evaluate_metrics_eq (env : MetricEnv) (i r : String) (c : Option (List String))
    (h : ((buildMetrics env).map Metric.name).Nodup) :
    (evaluate env i r c).metrics = (buildMetrics env).map (metricEntry (mkTestCase i r c)) := by
  unfold evaluate
  simpa using scoreMetrics_fst (mkTestCase i r c) (buildMetrics env) [] [] h (by simp)

theorem evaluate_aggregate_eq (env : MetricEnv) (i r : String) (c : Option (List String)) :
    (evaluate env i r c).aggregate =
      meanOfScores (numericScores (mkTestCase i r c) (buildMetrics env)) := by
  unfold evaluate
  simp [scoreMetrics_snd]

theorem filterMap_metricEntry (tc : LLMTestCase) (ms : List Metric) :
    (ms.map (metricEntry tc)).filterMap (fun p => numOf p.2.score) = numericScores tc ms := by
  rw [List.filterMap_map]
  unfold numericScores
  congr 1
  funext m
  simp [Function.comp, metricEntry_score]

/-! ### Supporting lemmas about the ingestion adapter -/

theorem pyOrList_some (l : List String) : Ragas.pyOrList (Option.some l) = l := by
  cases l <;> simp [Ragas.pyOrList]

theorem loadFiles_docs_grow (env : LoaderEnv) :
    ∀ (files : List String) (docs : List Document),
      ∃ t, (loadFiles env files docs).1 = docs ++ t := by
  intro files
  induction files with
  | nil => intro docs; exact ⟨[], by simp [loadFiles]⟩
  | cons f rest ih =>
    intro docs
    by_cases h1 : pyEndsWith (pyLower f) ".pdf" = true
    · cases h2 : env.loadPdf f with
      | ok ds =>
        obtain ⟨t, ht⟩ := ih (docs ++ ds)
        exact ⟨ds ++ t, by simp [loadFiles, h1, h2, ht]⟩
      | error e =>
        exact ⟨[], by simp [loadFiles, h1, h2]⟩
    · by_cases h2 : (pyEndsWith (pyLower f) ".xls" || pyEndsWith (pyLower f) ".xlsx") = true
      · cases h3 : env.loadExcel f with
        | ok ds =>
          obtain ⟨t, ht⟩ := ih (docs ++ ds)
          exact ⟨ds ++ t, by simp [loadFiles, h1, h2, h3, ht]⟩
        | error e =>
          exact ⟨[], by simp [loadFiles, h1, h2, h3]⟩
      · obtain ⟨t, ht⟩ := ih docs
        exact ⟨t, by simp [loadFiles, h1, h2, ht]⟩

theorem loadFiles_unsupported (env : LoaderEnv) :
    ∀ (files : List String) (docs : List Document),
      (∀ f ∈ files, pyEndsWith (pyLower f) ".pdf" = false ∧
        pyEndsWith (pyLower f) ".xls" = false ∧ pyEndsWith (pyLower f) ".xlsx" = false) →
      loadFiles env files docs = (docs, Option.none) := by
  intro files
  induction files with
  | nil => intro docs _; rfl
  | cons f rest ih =>
    intro docs h
    obtain ⟨h1, h2, h3⟩ := h f (List.mem_cons_self f rest)
    have hrest := fun g hg => h g (List.mem_cons_of_mem f hg)
    simp [loadFiles, h1, h2, h3, ih docs hrest]

theorem loadLinks_eq (env : LoaderEnv) :
    ∀ (links : List String) (docs : List Document) (log : List LogEntry),
      loadLinks env links docs log = (docs ++ webDocs env links, log ++ linkLog env links) := by
  intro links
  induction links with
  | nil => intro docs log; simp [loadLinks, webDocs, linkLog]
  | cons l rest ih =>
    intro docs log
    cases h : env.loadWeb l with
    | ok ds => simp [loadLinks, webDocs, linkLog, h, ih]
    | error e => simp [loadLinks, webDocs, linkLog, h, ih]

theorem webLoadFailed_mem_linkLog (env : LoaderEnv) (links : List String) (l e : String)
    (hl : l ∈ links) (he : env.loadWeb l = .error e) :
    LogEntry.webLoadFailed l e ∈ linkLog env links := by
  unfold linkLog
  rw [List.mem_flatMap]
  exact ⟨l, hl, by simp [he]⟩

/-! ### Concrete environments used by the witnesses -/

def mA : Metric := ⟨"a", fun _ => Except.ok (PyVal.num (1/2), Option.some "fine")⟩

def mB : Metric := ⟨"b", fun _ => Except.error "boom"⟩

def envAB : MetricEnv := ⟨Except.ok mA, Except.error "na", Except.ok mB, Except.error "nh"⟩

def mRel : Metric := ⟨"relevancy", fun _ => Except.ok (PyVal.num (4/5), Option.some "good")⟩

def envRel : MetricEnv := ⟨Except.ok mRel, Except.error "na", Except.error "nb", Except.error "nh"⟩

def envF : LoaderEnv :=
  ⟨fun _ => Except.error "io", fun _ => Except.error "xe", fun _ => Except.ok [⟨"w", "u"⟩]⟩

def envW : LoaderEnv :=
  ⟨fun _ => Except.ok [], fun _ => Except.ok [], fun _ => Except.error "down"⟩

/-! ### The claims -/

/-- C1: the `aggregate` value returned by `evaluate` is the arithmetic mean of
exactly the numeric per-metric scores (null scores skipped), and `None` when no
metric produced a numeric score — unconditionally in terms of the scored metric
list, and, whenever the metric names are pairwise distinct, in terms of the
returned per-metric mapping itself. -/
theorem evaluate_aggregate_is_mean (env : MetricEnv) (i resp : String)
    (c : Option (List String)) :
    (evaluate env i resp c).aggregate
      = meanOfScores (numericScores (mkTestCase i resp c) (buildMetrics env))
    ∧ (((buildMetrics env).map Metric.name).Nodup →
        (evaluate env i resp c).aggregate
          = meanOfScores ((evaluate env i resp c).metrics.filterMap (fun p => numOf p.2.score))) := by
  constructor
  · exact evaluate_aggregate_eq env i resp c
  · intro h
    rw [evaluate_metrics_eq env i resp c h, filterMap_metricEntry, evaluate_aggregate_eq]

theorem evaluate_aggregate_is_mean_witness :
    ((buildMetrics envAB).map Metric.name).Nodup ∧
    (evaluate envAB "q" "a" Option.none).aggregate
      = meanOfScores
          ((evaluate envAB "q" "a" Option.none).metrics.filterMap (fun p => numOf p.2.score)) :=
  ⟨by decide, (evaluate_aggregate_is_mean envAB "q" "a" Option.none).2 (by decide)⟩

/-- C2: when a metric's scoring call raises, `evaluate` does not propagate the
exception (it is a total function of the environment): the metric's entry
records a null score and the non-empty reason `"metric error: " ++ e`
containing the error text, and every metric's entry — so in particular every
other metric's — is determined solely by its own `measure` call. -/
theorem evaluate_metric_error_recorded (env : MetricEnv) (i resp : String)
    (c : Option (List String)) (m : Metric) (e : String)
    (hnd : ((buildMetrics env).map Metric.name).Nodup)
    (hm : m ∈ buildMetrics env)
    (he : m.measure (mkTestCase i resp c) = Except.error e) :
    (m.name, (⟨PyVal.noneVal, Option.some ("metric error: " ++ e)⟩ : MetricResult))
        ∈ (evaluate env i resp c).metrics
    ∧ ("metric error: " ++ e) ≠ ""
    ∧ (∃ pre, ("metric error: " ++ e) = pre ++ e)
    ∧ (evaluate env i resp c).metrics
        = (buildMetrics env).map (metricEntry (mkTestCase i resp c)) := by
  have hmeq := evaluate_metrics_eq env i resp c hnd
  refine ⟨?_, ?_, ⟨"metric error: ", rfl⟩, hmeq⟩
  · rw [hmeq]
    have hent : metricEntry (mkTestCase i resp c) m
        = (m.name, ⟨PyVal.noneVal, Option.some ("metric error: " ++ e)⟩) := by
      simp [metricEntry, he]
    have hmm := List.mem_map_of_mem (metricEntry (mkTestCase i resp c)) hm
    rw [hent] at hmm
    exact hmm
  · intro heq
    have hd := congrArg String.data heq
    rw [String.data_append] at hd
    have h2 : ("" : String).data = [] := rfl
    rw [h2] at hd
    exact absurd (List.append_eq_nil.mp hd).1 (by decide)

theorem evaluate_metric_error_recorded_witness :
    ((buildMetrics envAB).map Metric.name).Nodup ∧
    mB ∈ buildMetrics envAB ∧
    mB.measure (mkTestCase "q" "a" Option.none) = Except.error "boom" ∧
    ("b", (⟨PyVal.noneVal, Option.some ("metric error: " ++ "boom")⟩ : MetricResult))
        ∈ (evaluate envAB "q" "a" Option.none).metrics := by
  have hmem : mB ∈ buildMetrics envAB :=
    List.mem_cons_of_mem mA (List.mem_cons_self mB [])
  have h := evaluate_metric_error_recorded envAB "q" "a" Option.none mB "boom"
    (by decide) hmem rfl
  exact ⟨by decide, hmem, rfl, h.1⟩

/-- C3: `evaluate` with the context omitted (`None`) returns the same result as
`evaluate` with an explicit empty context list — `context or []` normalizes
both to the empty sequence. -/
theorem evaluate_context_none_eq_empty (env : MetricEnv) (i resp : String) :
    evaluate env i resp Option.none = evaluate env i resp (Option.some []) := rfl

/-- C4: the shared, module-level `docs` collection is cumulative: any
construction of `document_loader` only appends to the shared state it is run
against, so documents appended by earlier instantiations remain (as a prefix),
and the construction's result is only the updated shared state (plus a
possibly propagating exception), never a per-instance collection. -/
theorem document_loader_docs_cumulative (env : LoaderEnv)
    (rag_files rag_links : Option (List String)) (st : DLState) :
    ∃ t, ((document_loader env rag_files rag_links st).1).docs = st.docs ++ t := by
  obtain ⟨t, ht⟩ := loadFiles_docs_grow env (Ragas.pyOrList rag_files) st.docs
  simp only [document_loader]
  by_cases hc : ((Ragas.pyOrList rag_files).isEmpty && (Ragas.pyOrList rag_links).isEmpty) = true
  · exact ⟨[], by simp [hc]⟩
  · rw [if_neg hc]
    cases hlf : loadFiles env (Ragas.pyOrList rag_files) st.docs with
    | mk docs1 err =>
      rw [hlf] at ht
      cases err with
      | none =>
        refine ⟨t ++ webDocs env (Ragas.pyOrList rag_links), ?_⟩
        simp [loadLinks_eq]
        simp at ht
        simp [ht]
      | some e =>
        exact ⟨t, ht⟩

/-- C5: merely importing `doc_loader` runs the top-level
`document_loader(rag_links=[hardcodedUrl])` against the fresh module state:
the hard-coded URL is fetched through the web loader (the `docs` list after
the module loads is exactly that fetch's result), the loader print for that URL is
emitted, and the import itself never raises. -/
theorem doc_loader_import_side_effect (env : LoaderEnv) :
    (moduleInit env).1.docs
      = (match env.loadWeb hardcodedUrl with
         | Except.ok ds => ds
         | Except.error _ => [])
    ∧ LogEntry.loaderRepr hardcodedUrl ∈ (moduleInit env).1.log
    ∧ (moduleInit env).2 = Option.none := by
  have h1 : document_loader env Option.none (Option.some [hardcodedUrl]) ⟨[], []⟩
      = (⟨webDocs env [hardcodedUrl],
          [LogEntry.inputs [] [hardcodedUrl]] ++ linkLog env [hardcodedUrl]
            ++ [LogEntry.docsDump (webDocs env [hardcodedUrl])]⟩, Option.none) := by
    simp [document_loader, Ragas.pyOrList, loadFiles, loadLinks_eq]
  cases hw : env.loadWeb hardcodedUrl with
  | ok ds =>
    refine ⟨?_, ?_, ?_⟩ <;> simp [moduleInit, h1, webDocs, linkLog, hw]
  | error e =>
    refine ⟨?_, ?_, ?_⟩ <;> simp [moduleInit, h1, webDocs, linkLog, hw]

/-- C6: a failing file load is not caught: if the PDF (or spreadsheet) loader
raises on a file, the exception propagates out of `document_loader`
construction and aborts the whole run — the shared collection keeps only what
was loaded before the failure and no link is processed — whereas a run over
links alone can never propagate an exception. -/
theorem document_loader_file_error_propagates (env : LoaderEnv) (st : DLState) :
    (∀ f e rest links, pyEndsWith (pyLower f) ".pdf" = true →
      env.loadPdf f = Except.error e →
      document_loader env (Option.some (f :: rest)) (Option.some links) st
        = (⟨st.docs, st.log ++ [LogEntry.inputs (f :: rest) links]⟩, Option.some e))
    ∧ (∀ f e rest links, pyEndsWith (pyLower f) ".pdf" = false →
        (pyEndsWith (pyLower f) ".xls" || pyEndsWith (pyLower f) ".xlsx") = true →
        env.loadExcel f = Except.error e →
        document_loader env (Option.some (f :: rest)) (Option.some links) st
          = (⟨st.docs, st.log ++ [LogEntry.inputs (f :: rest) links]⟩, Option.some e))
    ∧ (∀ links, (document_loader env Option.none (Option.some links) st).2 = Option.none) := by
  refine ⟨?_, ?_, ?_⟩
  · intro f e rest links h1 h2
    simp [document_loader, pyOrList_some, Ragas.pyOrList, loadFiles, h1, h2]
  · intro f e rest links h1 h2 h3
    simp [document_loader, pyOrList_some, Ragas.pyOrList, loadFiles, h1, h2, h3]
  · intro links
    cases links with
    | nil => rfl
    | cons l ls =>
      simp [document_loader, Ragas.pyOrList, loadFiles, loadLinks_eq]

theorem document_loader_file_error_propagates_witness :
    pyEndsWith (pyLower "A.PDF") ".pdf" = true ∧
    envF.loadPdf "A.PDF" = Except.error "io" ∧
    document_loader envF (Option.some ["A.PDF"]) (Option.some []) ⟨[], []⟩
      = (⟨[], [LogEntry.inputs ["A.PDF"] []]⟩, Option.some "io") := by
  have h := (document_loader_file_error_propagates envF ⟨[], []⟩).1 "A.PDF" "io" [] []
    (by decide) rfl
  exact ⟨by decide, rfl, h⟩

/-- C7: a failing web load never aborts the batch: the exception is caught, a
diagnostic naming the failing URL and the error is emitted, the remaining URLs
are still processed, and the shared collection receives the documents of every
successfully loaded URL. -/
theorem document_loader_web_error_recovered (env : LoaderEnv) (st : DLState)
    (links : List String) (l e : String)
    (hl : l ∈ links) (he : env.loadWeb l = Except.error e) :
    (document_loader env Option.none (Option.some links) st).2 = Option.none
    ∧ LogEntry.webLoadFailed l e
        ∈ ((document_loader env Option.none (Option.some links) st).1).log
    ∧ ((document_loader env Option.none (Option.some links) st).1).docs
        = st.docs ++ webDocs env links := by
  obtain ⟨l0, ls, rfl⟩ : ∃ l0 ls, links = l0 :: ls := by
    cases links with
    | nil => exact absurd hl (by simp)
    | cons a b => exact ⟨a, b, rfl⟩
  have hmem := webLoadFailed_mem_linkLog env (l0 :: ls) l e hl he
  have h1 : document_loader env Option.none (Option.some (l0 :: ls)) st
      = (⟨st.docs ++ webDocs env (l0 :: ls),
          (st.log ++ [LogEntry.inputs [] (l0 :: ls)]) ++ linkLog env (l0 :: ls)
            ++ [LogEntry.docsDump (st.docs ++ webDocs env (l0 :: ls))]⟩, Option.none) := by
    simp [document_loader, Ragas.pyOrList, loadFiles, loadLinks_eq]
  rw [h1]
  exact ⟨rfl, by simp [hmem], rfl⟩

theorem document_loader_web_error_recovered_witness :
    ("bad" ∈ ["good", "bad"]) ∧
    envW.loadWeb "bad" = Except.error "down" ∧
    (document_loader envW Option.none (Option.some ["good", "bad"]) ⟨[], []⟩).2
      = Option.none := by
  have h := document_loader_web_error_recovered envW ⟨[], []⟩ ["good", "bad"] "bad" "down"
    (by decide) rfl
  exact ⟨by decide, rfl, h.1⟩

/-- C8: constructing the adapter with only unsupported file extensions (no
`.pdf`, `.xls`, `.xlsx`, case-insensitively) and no URLs leaves the shared
document collection unchanged and raises nothing — unsupported extensions are
silently skipped. -/
theorem document_loader_unsupported_skipped (env : LoaderEnv) (st : DLState)
    (files : List String)
    (h : ∀ f ∈ files, pyEndsWith (pyLower f) ".pdf" = false ∧
      pyEndsWith (pyLower f) ".xls" = false ∧ pyEndsWith (pyLower f) ".xlsx" = false) :
    ((document_loader env (Option.some files) Option.none st).1).docs = st.docs
    ∧ (document_loader env (Option.some files) Option.none st).2 = Option.none := by
  cases files with
  | nil => exact ⟨rfl, rfl⟩
  | cons f rest =>
    have hlf := loadFiles_unsupported env (f :: rest) st.docs h
    constructor <;> simp [document_loader, Ragas.pyOrList, hlf, loadLinks_eq, webDocs, linkLog]

theorem document_loader_unsupported_skipped_witness :
    (∀ f ∈ ["notes.txt", "img.png"], pyEndsWith (pyLower f) ".pdf" = false ∧
      pyEndsWith (pyLower f) ".xls" = false ∧ pyEndsWith (pyLower f) ".xlsx" = false) ∧
    ((document_loader envF (Option.some ["notes.txt", "img.png"]) Option.none
        ⟨[], []⟩).1).docs = [] := by
  have h := document_loader_unsupported_skipped envF ⟨[], []⟩ ["notes.txt", "img.png"]
    (by decide)
  exact ⟨by decide, h.1⟩

/-- C9: metric instantiation order and fallback: the metric list is the RAGAS
answer-relevancy metric (or, when its construction raises, the generic
answer-relevancy metric) followed by the bias metric and then the
hallucination metric; a metric whose construction raises is silently skipped
while the others are still instantiated, and every instantiated metric is
scored (its name keys an entry of the returned mapping). -/
theorem buildMetrics_order_and_fallback (env : MetricEnv) :
    (∀ r b hm, env.ragasRelevancy = Except.ok r → env.bias = Except.ok b →
      env.hallucination = Except.ok hm → buildMetrics env = [r, b, hm])
    ∧ (∀ e g b hm, env.ragasRelevancy = Except.error e → env.answerRelevancy = Except.ok g →
        env.bias = Except.ok b → env.hallucination = Except.ok hm →
        buildMetrics env = [g, b, hm])
    ∧ (∀ e e' b hm, env.ragasRelevancy = Except.error e →
        env.answerRelevancy = Except.error e' → env.bias = Except.ok b →
        env.hallucination = Except.ok hm → buildMetrics env = [b, hm])
    ∧ (∀ r e hm, env.ragasRelevancy = Except.ok r → env.bias = Except.error e →
        env.hallucination = Except.ok hm → buildMetrics env = [r, hm])
    ∧ (∀ r b e, env.ragasRelevancy = Except.ok r → env.bias = Except.ok b →
        env.hallucination = Except.error e → buildMetrics env = [r, b])
    ∧ (∀ m, m ∈ buildMetrics env → ∀ i resp c,
        m.name ∈ ((evaluate env i resp c).metrics.map Prod.fst)) := by
  refine ⟨?_, ?_, ?_, ?_, ?_, ?_⟩
  · intro r b hm h1 h2 h3; simp [buildMetrics, h1, h2, h3]
  · intro e g b hm h1 h2 h3 h4; simp [buildMetrics, h1, h2, h3, h4]
  · intro e e' b hm h1 h2 h3 h4; simp [buildMetrics, h1, h2, h3, h4]
  · intro r e hm h1 h2 h3; simp [buildMetrics, h1, h2, h3]
  · intro r b e h1 h2 h3; simp [buildMetrics, h1, h2, h3]
  · intro m hmem i resp c
    exact scoreMetrics_fst_key_mem (mkTestCase i resp c) (buildMetrics env) [] [] m hmem

theorem buildMetrics_order_and_fallback_witness :
    envAB.ragasRelevancy = Except.ok mA ∧
    envAB.bias = Except.ok mB ∧
    envAB.hallucination = Except.error "nh" ∧
    buildMetrics envAB = [mA, mB] :=
  ⟨rfl, rfl, rfl,
    (buildMetrics_order_and_fallback envAB).2.2.2.2.1 mA mB "nh" rfl rfl rfl⟩

/-- C10: with no supplied context, a relevancy metric named "relevancy" whose
scoring returns 0.8, and bias and hallucination metrics whose construction
fails, `evaluate` returns exactly one entry under the key "relevancy" with
score 0.8, and the aggregate equals 0.8. -/
theorem evaluate_single_relevancy_example (env : MetricEnv) (i resp : String)
    (m : Metric) (rs : Option String)
    (h1 : env.ragasRelevancy = Except.ok m)
    (h2 : m.name = "relevancy")
    (h3 : m.measure (mkTestCase i resp Option.none) = Except.ok (PyVal.num (4/5), rs))
    (h4 : ∃ e, env.bias = Except.error e)
    (h5 : ∃ e, env.hallucination = Except.error e) :
    evaluate env i resp Option.none
      = ⟨[("relevancy", ⟨PyVal.num (4/5), rs⟩)], Option.some (4/5)⟩ := by
  obtain ⟨eb, hb⟩ := h4
  obtain ⟨eh, hh⟩ := h5
  have hbm : buildMetrics env = [m] := by simp [buildMetrics, h1, hb, hh]
  unfold evaluate
  rw [hbm]
  simp [scoreMetrics, h3, dictInsert, h2, meanOfScores]

theorem evaluate_single_relevancy_example_witness :
    envRel.ragasRelevancy = Except.ok mRel ∧
    mRel.name = "relevancy" ∧
    mRel.measure (mkTestCase "q" "a" Option.none)
      = Except.ok (PyVal.num (4/5), Option.some "good") ∧
    evaluate envRel "q" "a" Option.none
      = ⟨[("relevancy", ⟨PyVal.num (4/5), Option.some "good"⟩)], Option.some (4/5)⟩ :=
  ⟨rfl, rfl, rfl,
    evaluate_single_relevancy_example envRel "q" "a" mRel (Option.some "good")
      rfl rfl rfl ⟨"nb", rfl⟩ ⟨"nh", rfl⟩⟩
